import Mathlib

/-!
Verification of the StellarCade randomness-oracle / wagering-engine pair.

The development shallowly embeds:
  * the oracle-integration contract (src/contracts/oracle-integration/src/lib.rs),
  * the RNG derivation used by the number-guess game, re-stated in the game's
    test suite (src/contracts/number-guess/src/test.rs, `derive_rng_result`),
  * the wagering settlement engine (the number-guess contract).  Its lib.rs is
    not part of the available sources (only its tests are), so its operations
    are modelled from the specification, as marked on each definition.

Machine integers are embedded as `Nat` / `Int` with explicit `% 2^w`
reductions where the source wraps, and explicit range checks where the source
uses checked arithmetic.  Fallible contract entry points return `Except`;
a failed call leaves the pre-state in force (the host rolls back), which the
`run*` wrappers make explicit.
-/

set_option maxRecDepth 4000

namespace StellarCade

/-! ## Bytes and 32-bit words -/

/-- A byte string, each element intended to be `< 256`. -/
abbrev Bytes := List Nat

/-- Big-endian 8-byte encoding of a 64-bit integer, as in
`request_id.to_be_bytes()` in the source. -/
def be64 (n : Nat) : Bytes :=
  [ n / 2 ^ 56 % 256, n / 2 ^ 48 % 256, n / 2 ^ 40 % 256, n / 2 ^ 32 % 256,
    n / 2 ^ 24 % 256, n / 2 ^ 16 % 256, n / 2 ^ 8 % 256, n % 256 ]

/-- Big-endian interpretation of a byte string as a natural number, as in
`u64::from_be_bytes` in the source. -/
def beVal (bs : Bytes) : Nat :=
  bs.foldl (fun acc b => acc * 256 + b) 0

/-- Addition modulo 2^32. -/
def add32 (a b : Nat) : Nat := (a + b) % 2 ^ 32

/-- Right rotation of a 32-bit word. -/
def rotr32 (x n : Nat) : Nat := ((x >>> n) ||| (x <<< (32 - n))) % 2 ^ 32

/-- Bitwise complement of a 32-bit word. -/
def not32 (x : Nat) : Nat := x ^^^ (2 ^ 32 - 1)

/-! ## SHA-256

The host primitive `env.crypto().sha256` used by the derivation; standard
FIPS 180-4 over byte strings. -/

/-- SHA-256 round constants. -/
def shaK : List Nat :=
  [
    1116352408, 1899447441, 3049323471, 3921009573,
    961987163, 1508970993, 2453635748, 2870763221,
    3624381080, 310598401, 607225278, 1426881987,
    1925078388, 2162078206, 2614888103, 3248222580,
    3835390401, 4022224774, 264347078, 604807628,
    770255983, 1249150122, 1555081692, 1996064986,
    2554220882, 2821834349, 2952996808, 3210313671,
    3336571891, 3584528711, 113926993, 338241895,
    666307205, 773529912, 1294757372, 1396182291,
    1695183700, 1986661051, 2177026350, 2456956037,
    2730485921, 2820302411, 3259730800, 3345764771,
    3516065817, 3600352804, 4094571909, 275423344,
    430227734, 506948616, 659060556, 883997877,
    958139571, 1322822218, 1537002063, 1747873779,
    1955562222, 2024104815, 2227730452, 2361852424,
    2428436474, 2756734187, 3204031479, 3329325298 ]

/-- SHA-256 initial hash state. -/
def shaH0 : List Nat :=
  [
    1779033703, 3144134277, 1013904242, 2773480762,
    1359893119, 2600822924, 528734635, 1541459225 ]

/-- Message-schedule sigma-0. -/
def ssig0 (x : Nat) : Nat := rotr32 x 7 ^^^ rotr32 x 18 ^^^ (x >>> 3)

/-- Message-schedule sigma-1. -/
def ssig1 (x : Nat) : Nat := rotr32 x 17 ^^^ rotr32 x 19 ^^^ (x >>> 10)

/-- Compression capital-sigma-0. -/
def bsig0 (x : Nat) : Nat := rotr32 x 2 ^^^ rotr32 x 13 ^^^ rotr32 x 22

/-- Compression capital-sigma-1. -/
def bsig1 (x : Nat) : Nat := rotr32 x 6 ^^^ rotr32 x 11 ^^^ rotr32 x 25

/-- Group a byte string into big-endian 32-bit words. -/
def bytesToWords : Bytes → List Nat
  | b0 :: b1 :: b2 :: b3 :: rest =>
      (((b0 * 256 + b1) * 256 + b2) * 256 + b3) :: bytesToWords rest
  | _ => []

/-- Four big-endian bytes of a 32-bit word. -/
def wordBytes (w : Nat) : Bytes :=
  [ w / 2 ^ 24 % 256, w / 2 ^ 16 % 256, w / 2 ^ 8 % 256, w % 256 ]

/-- Extend a 16-word block by the given number of schedule words. -/
def extendWords : Nat → List Nat → List Nat
  | 0, ws => ws
  | n + 1, ws =>
      let len := ws.length
      let t := add32
        (add32 (ssig1 (ws.getD (len - 2) 0)) (ws.getD (len - 7) 0))
        (add32 (ssig0 (ws.getD (len - 15) 0)) (ws.getD (len - 16) 0))
      extendWords n (ws ++ [t])

/-- One round of the SHA-256 compression function on the 8-word state. -/
def shaRound (st : List Nat) (k w : Nat) : List Nat :=
  match st with
  | [a, b, c, d, e, f, g, h] =>
      let ch := (e &&& f) ^^^ (not32 e &&& g)
      let temp1 := add32 (add32 (add32 h (bsig1 e)) (add32 ch k)) w
      let maj := (a &&& b) ^^^ (a &&& c) ^^^ (b &&& c)
      let temp2 := add32 (bsig0 a) maj
      [add32 temp1 temp2, a, b, c, add32 d temp1, e, f, g]
  | other => other

/-- Compress one 64-byte chunk into the running 8-word hash state. -/
def shaCompress (hs : List Nat) (chunk : Bytes) : List Nat :=
  let ws := extendWords 48 (bytesToWords chunk)
  let fin := (shaK.zip ws).foldl (fun st kw => shaRound st kw.1 kw.2) hs
  (hs.zip fin).map fun p => add32 p.1 p.2

/-- Split a byte string into 64-byte chunks; fuel-driven so that the kernel
can reduce it (the fuel is always taken as the string's length). -/
def chunks64 : Nat → Bytes → List Bytes
  | 0, _ => []
  | _, [] => []
  | fuel + 1, bs => bs.take 64 :: chunks64 fuel (bs.drop 64)

/-- SHA-256 padding: a 0x80 byte, zeros to 56 mod 64, then the bit length
in 8 big-endian bytes. -/
def shaPad (msg : Bytes) : Bytes :=
  let len := msg.length
  let zeros := (64 + 56 - (len + 1) % 64) % 64
  msg ++ 0x80 :: List.replicate zeros 0 ++ be64 (8 * len)

/-- SHA-256 of a byte string: 32 digest bytes. -/
def sha256 (msg : Bytes) : Bytes :=
  let padded := shaPad msg
  let fin := (chunks64 padded.length padded).foldl shaCompress shaH0
  (fin.map wordBytes).flatten

/-- Sanity check against the FIPS 180-4 test vector for the ASCII string
consisting of the three bytes "abc". -/
theorem sha256_abc_vector :
    sha256 [97, 98, 99] =
      [
    186, 120, 22, 191, 143, 1, 207, 234,
    65, 65, 64, 222, 93, 174, 34, 35,
    176, 3, 97, 163, 150, 23, 122, 156,
    180, 16, 255, 97, 242, 0, 21, 173 ] := by
  decide

/-! ## Randomness derivation

Embeds `derive_rng_result` from src/contracts/number-guess/src/test.rs,
which re-derives the RNG result exactly the way the Random Generator
contract does: the preimage is the 32-byte server seed followed by the
big-endian encoding of the 64-bit request id; the raw value is the first
8 digest bytes read big-endian as a u64. -/

/-- Raw 64-bit value derived from a seed and a request id: the first 8 bytes,
big-endian, of SHA-256 of the seed followed by the big-endian request id. -/
def deriveRngRaw (server_seed : Bytes) (request_id : Nat) : Nat :=
  beVal ((sha256 (server_seed ++ be64 request_id)).take 8)

/-- The test-suite helper `derive_rng_result`: the raw value reduced modulo
the range size (its `max` parameter). -/
def derive_rng_result (server_seed : Bytes) (request_id maxR : Nat) : Nat :=
  deriveRngRaw server_seed request_id % maxR

/-- The secret number the engine computes at resolution:
`min + (raw_value mod range_size)` where `range_size = max - min + 1`. -/
def secretOf (mn mx raw : Nat) : Nat :=
  mn + raw % (mx - mn + 1)

/-- The all-zero 32-byte seed, used as a concrete evaluation point. -/
def zeroSeed : Bytes := List.replicate 32 0

/-! ## Oracle-integration contract

Embeds src/contracts/oracle-integration/src/lib.rs.  Identities and 32-byte
ids are opaque values compared for equality only, so they are embedded as
naturals; a payload is a byte string. -/

/-- Contract identities (Soroban addresses), opaque, equality only. -/
abbrev Address := Nat

/-- Opaque 32-byte identifiers (feed ids, request ids), embedded as their
numeric value; the all-zero id is the number 0. -/
abbrev Id32 := Nat

/-- One oracle request record, as stored under `DataKey::Request`. -/
structure OracleRequest where
  feed_id : Id32
  fulfilled : Bool
  payload : Bytes
deriving Repr, DecidableEq

/-- Errors of the oracle-integration contract. -/
inductive OIError where
  | AlreadyInitialized
  | NotAuthorized
  | RequestExists
  | RequestNotFound
  | AlreadyFulfilled
  | InvalidInput
  | OracleNotWhitelisted
deriving Repr, DecidableEq

/-- A contract call either traps in the host (a failed `require_auth`),
returns a contract error, or succeeds. -/
inductive OIOutcome (α : Type) where
  | trap : OIOutcome α
  | err : OIError → OIOutcome α
  | ok : α → OIOutcome α

/-- Storage of the oracle-integration contract: the instance entries
`Admin` and `OracleSources`, and the persistent maps `Request` and
`Latest`. -/
structure OIState where
  admin : Option Address
  sources : Option (List Address)
  requests : Id32 → Option OracleRequest
  latestMap : Id32 → Option Bytes

namespace OracleIntegration

/-- Embeds `fulfill_data`: rejects an empty payload, authenticates the
caller, requires it whitelisted in `OracleSources`, requires the request to
exist and to be unfulfilled, then marks it fulfilled with the payload and
updates the feed's latest value.  The `auths` argument is the host's set of
identities that authorized this invocation; `require_auth` traps when the
caller is not among them. -/
def fulfill_data (auths : Address → Bool) (st : OIState)
    (caller : Address) (request_id : Id32) (payload : Bytes)
    (_proof : Bytes) : OIOutcome OIState :=
  if payload.isEmpty then .err .InvalidInput
  else if ¬ auths caller then .trap
  else
    match st.sources with
    | none => .err .NotAuthorized
    | some sources =>
      if ¬ sources.contains caller then .err .OracleNotWhitelisted
      else
        match st.requests request_id with
        | none => .err .RequestNotFound
        | some request =>
          if request.fulfilled then .err .AlreadyFulfilled
          else
            let request1 : OracleRequest :=
              { request with fulfilled := true, payload := payload }
            .ok { st with
                  requests := fun rid =>
                    if rid = request_id then some request1 else st.requests rid,
                  latestMap := fun fid =>
                    if fid = request.feed_id then some payload
                    else st.latestMap fid }

/-- Embeds `latest`: a total read of the persistent `Latest` entry for a
feed id; no authentication, no error — absent means `none`. -/
def latest (st : OIState) (feed_id : Id32) : Option Bytes :=
  st.latestMap feed_id

/-- Embeds `get_request`: a total read of the persistent `Request` entry for
a request id; no authentication, no error — absent means `none`. -/
def get_request (st : OIState) (request_id : Id32) : Option OracleRequest :=
  st.requests request_id

/-- The state after a `fulfill_data` invocation as the host sees it: on
success the new state, on a trap or contract error the rolled-back
pre-state. -/
def runFulfill (auths : Address → Bool) (st : OIState)
    (caller : Address) (request_id : Id32) (payload proof : Bytes) : OIState :=
  match fulfill_data auths st caller request_id payload proof with
  | .ok st1 => st1
  | .err _ => st
  | .trap => st

end OracleIntegration

/-! ## Wagering settlement engine (number-guess)

The number-guess contract's lib.rs is not among the available sources (only
its test suite is), so the engine is modelled from the specification,
section 4.2, with the storable types of section 3.  Every definition below
marked `Modelled from the spec` embeds that missing code. -/

/-- Modelled from the spec: the four-state game lifecycle
Open, Guessed, Won, Lost. -/
inductive GameStatus where
  | Open
  | Guessed
  | Won
  | Lost
deriving Repr, DecidableEq

/-- Modelled from the spec: one per-game record.  The u32 fields are
naturals, the i128 fields integers. -/
structure Game where
  player : Address
  min : Nat
  max : Nat
  wager : Int
  guess : Nat
  secret : Nat
  payout : Int
  status : GameStatus
deriving Repr, DecidableEq

/-- Modelled from the spec: the engine's singleton configuration, set once
at init. -/
structure EngineConfig where
  admin : Address
  rng_contract : Address
  prize_pool : Address
  settlement_token : Address
  min_wager : Int
  max_wager : Int
  house_edge_bps : Int
deriving Repr, DecidableEq

/-- Modelled from the spec: the cap on `range_size = max - min + 1`, which
exists to keep `wager * range_size` within the settlement currency's
numeric range.  The sources available here use the constant without fixing
its value; the claims below depend only on its being positive. -/
def MAX_RANGE_SIZE : Nat := 1000

/-- Modelled from the spec: errors surfaced by the engine.  The final two
variants stand for host-level aborts (a failed `require_auth`, a failed
token-port transfer), which likewise abort the whole operation. -/
inductive NgError where
  | NotInitialized
  | AlreadyInitialized
  | NotAuthorized
  | InvalidRange
  | WagerOutOfBounds
  | DuplicateGameId
  | GuessOutOfRange
  | AlreadyGuessed
  | NotYetGuessed
  | AlreadyResolved
  | RandomnessNotFulfilled
  | AlreadyFulfilled
  | GameNotFound
  | ArithmeticOverflow
  | AuthTrap
  | TransferFailed
deriving Repr, DecidableEq

/-- Modelled from the spec: the world an engine invocation runs in — the
engine's configuration and identity, its game ledger keyed by the u64 game
id, the randomness oracle's fulfilled raw values keyed by request id
(the game id), and the settlement token's balances. -/
structure EngineState where
  config : EngineConfig
  selfAddr : Address
  games : Nat → Option Game
  rng : Nat → Option Nat
  balances : Address → Int

/-- Modelled from the spec: the token-transfer port.  Moves an amount of
the settlement token and fails, aborting the caller, if the source balance
is insufficient. -/
def transfer (st : EngineState) (src dst : Address) (amount : Int) :
    Except NgError EngineState :=
  if st.balances src < amount then .error .TransferFailed
  else
    let afterDebit := fun a => if a = src then st.balances a - amount else st.balances a
    .ok { st with balances := fun a =>
            if a = dst then afterDebit a + amount else afterDebit a }

/-- Update one game id in a game ledger. -/
def setGame (games : Nat → Option Game) (game_id : Nat) (g : Game) :
    Nat → Option Game :=
  fun i => if i = game_id then some g else games i

/-- Modelled from the spec: `start_game`.  Validates, in order, min < max,
the range-size cap, the wager bounds, and freshness of the game id; then
requires the player's authorization, debits the wager from the player to
the engine, and stores the new Open game. -/
def start_game (auths : Address → Bool) (st : EngineState)
    (player : Address) (mn mx : Nat) (wager : Int) (game_id : Nat) :
    Except NgError EngineState :=
  if ¬ mn < mx then .error .InvalidRange
  else if ¬ mx - mn + 1 ≤ MAX_RANGE_SIZE then .error .InvalidRange
  else if ¬ (st.config.min_wager ≤ wager ∧ wager ≤ st.config.max_wager ∧ 0 < wager) then
    .error .WagerOutOfBounds
  else if (st.games game_id).isSome then .error .DuplicateGameId
  else if ¬ auths player then .error .AuthTrap
  else
    match transfer st player st.selfAddr wager with
    | .error e => .error e
    | .ok st1 =>
      let g : Game :=
        { player := player, min := mn, max := mx, wager := wager,
          guess := 0, secret := 0, payout := 0, status := .Open }
      .ok { st1 with games := setGame st1.games game_id g }

/-- Modelled from the spec: `submit_guess`.  Requires the game to exist and
to be Open, and the guess to lie in the inclusive range; records the guess
and moves the game to Guessed. -/
def submit_guess (st : EngineState) (game_id guess : Nat) :
    Except NgError EngineState :=
  match st.games game_id with
  | none => .error .GameNotFound
  | some g =>
    if g.status ≠ .Open then .error .AlreadyGuessed
    else if guess < g.min ∨ g.max < guess then .error .GuessOutOfRange
    else
      let g1 : Game := { g with guess := guess, status := .Guessed }
      .ok { st with games := setGame st.games game_id g1 }

/-- Modelled from the spec: the winner's net payout — the gross payout
`wager * range_size` minus the floor of its house-edge fraction in basis
points. -/
def netPayout (wager : Int) (range_size : Nat) (bps : Int) : Int :=
  let gross := wager * (range_size : Int)
  gross - gross * bps / 10000

/-- Modelled from the spec: `resolve_game`.  Requires the game to exist and
to be Guessed; reads the oracle's fulfilled raw value for the game id;
derives the secret; on a win checks that the gross payout fits in i128,
pays the net amount from the engine to the player, and records Won with the
payout; on a loss records Lost with payout 0.  The secret is recorded
either way. -/
def resolve_game (st : EngineState) (game_id : Nat) :
    Except NgError EngineState :=
  match st.games game_id with
  | none => .error .GameNotFound
  | some g =>
    match g.status with
    | .Open => .error .NotYetGuessed
    | .Won => .error .AlreadyResolved
    | .Lost => .error .AlreadyResolved
    | .Guessed =>
      match st.rng game_id with
      | none => .error .RandomnessNotFulfilled
      | some raw =>
        let range_size := g.max - g.min + 1
        let secret := secretOf g.min g.max raw
        if g.guess = secret then
          if 2 ^ 127 - 1 < g.wager * (range_size : Int) then
            .error .ArithmeticOverflow
          else
            let net := netPayout g.wager range_size st.config.house_edge_bps
            match transfer st st.selfAddr g.player net with
            | .error e => .error e
            | .ok st1 =>
              let g1 : Game := { g with secret := secret, payout := net, status := .Won }
              .ok { st1 with games := setGame st1.games game_id g1 }
        else
          let g1 : Game := { g with secret := secret, payout := 0, status := .Lost }
          .ok { st with games := setGame st.games game_id g1 }

/-- Modelled from the spec: `get_game`, a read of the per-game record. -/
def get_game (st : EngineState) (game_id : Nat) : Except NgError Game :=
  match st.games game_id with
  | none => .error .GameNotFound
  | some g => .ok g

/-- The engine's entry points together with the oracle fulfillment that may
interleave with them, as one step alphabet for lifecycle reasoning. -/
inductive EngineOp where
  | startGame (auths : Address → Bool) (player : Address)
      (mn mx : Nat) (wager : Int) (game_id : Nat)
  | submitGuess (game_id guess : Nat)
  | resolveGame (game_id : Nat)
  | oracleFulfill (request_id raw : Nat)

/-- Apply one operation to the engine's world.  The oracle fulfillment is
write-once: it fails once a raw value is already stored. -/
def applyOp (op : EngineOp) (st : EngineState) : Except NgError EngineState :=
  match op with
  | .startGame auths player mn mx wager game_id =>
      start_game auths st player mn mx wager game_id
  | .submitGuess game_id guess => submit_guess st game_id guess
  | .resolveGame game_id => resolve_game st game_id
  | .oracleFulfill request_id raw =>
      match st.rng request_id with
      | some _ => .error .AlreadyFulfilled
      | none => .ok { st with rng := fun rid =>
                        if rid = request_id then some raw else st.rng rid }

/-- The post-state of one invocation as the host sees it: the new state on
success, the rolled-back pre-state on any failure. -/
def runOp (op : EngineOp) (st : EngineState) : EngineState :=
  match applyOp op st with
  | .ok st1 => st1
  | .error _ => st

/-- The post-state of a sequence of invocations, each applied
transactionally. -/
def runOps (ops : List EngineOp) (st : EngineState) : EngineState :=
  ops.foldl (fun s op => runOp op s) st

/-! ## Lemmas about the derivation -/

/-- Every byte of a word's big-endian expansion is below 256. -/
lemma wordBytes_lt (w b : Nat) (hb : b ∈ wordBytes w) : b < 256 := by
  simp only [wordBytes, List.mem_cons, List.not_mem_nil, or_false] at hb
  rcases hb with h | h | h | h <;> subst h <;>
    exact Nat.mod_lt _ (by norm_num)

/-- Every byte SHA-256 emits is below 256. -/
lemma sha256_bytes_lt (msg : Bytes) (b : Nat) (hb : b ∈ sha256 msg) :
    b < 256 := by
  simp only [sha256, List.mem_flatten, List.mem_map] at hb
  obtain ⟨l, ⟨w, _, hw⟩, hbl⟩ := hb
  exact wordBytes_lt w b (hw ▸ hbl)

/-- A big-endian value over bytes below 256 is bounded by 256 to the
length, relative to the accumulator. -/
lemma beVal_foldl_lt (bs : Bytes) (acc : Nat)
    (h : ∀ b ∈ bs, b < 256) :
    bs.foldl (fun a b => a * 256 + b) acc < (acc + 1) * 256 ^ bs.length := by
  induction bs generalizing acc with
  | nil => simp only [List.foldl_nil, List.length_nil, pow_zero, mul_one]
           exact Nat.lt_succ_self acc
  | cons b bs ih =>
    have hb : b < 256 := h b (List.mem_cons_self b bs)
    have hrest : ∀ x ∈ bs, x < 256 := fun x hx => h x (List.mem_cons_of_mem b hx)
    have step := ih (acc * 256 + b) hrest
    have hmono : (acc * 256 + b + 1) * 256 ^ bs.length ≤
        ((acc + 1) * 256) * 256 ^ bs.length := by
      have : acc * 256 + b + 1 ≤ (acc + 1) * 256 := by nlinarith
      exact Nat.mul_le_mul_right _ this
    calc List.foldl (fun a x => a * 256 + x) (acc * 256 + b) bs
        < (acc * 256 + b + 1) * 256 ^ bs.length := step
      _ ≤ ((acc + 1) * 256) * 256 ^ bs.length := hmono
      _ = (acc + 1) * 256 ^ (b :: bs).length := by
            rw [List.length_cons, pow_succ]; ring

/-- The raw derived value always fits in an unsigned 64-bit integer. -/
lemma deriveRngRaw_lt (seed : Bytes) (request_id : Nat) :
    deriveRngRaw seed request_id < 2 ^ 64 := by
  unfold deriveRngRaw beVal
  set ds := (sha256 (seed ++ be64 request_id)).take 8 with hds
  have hlt : ∀ b ∈ ds, b < 256 := fun b hb =>
    sha256_bytes_lt _ b (List.take_subset 8 _ hb)
  have hlen : ds.length ≤ 8 := by
    rw [hds]; exact (List.length_take_le 8 _)
  have h := beVal_foldl_lt ds 0 hlt
  have : (0 + 1) * 256 ^ ds.length ≤ 2 ^ 64 := by
    have : (256 : Nat) ^ ds.length ≤ 256 ^ 8 :=
      Nat.pow_le_pow_right (by norm_num) hlen
    simpa using this.trans (by norm_num)
  exact lt_of_lt_of_le h this

/-! ## Claim theorems: the derivation -/

/-- C2.  The oracle's fulfillment derivation is a pure function of the pair
of seed and request id: it is literally the big-endian value of the first 8
bytes of SHA-256 of the seed followed by the big-endian request id, it is
below 2^64 (an unsigned 64-bit integer), and identical inputs give the same
raw value and, for a fixed range, the same secret. -/
theorem derivation_pure_function (s1 s2 : Bytes) (r1 r2 mn mx : Nat)
    (hs : s1 = s2) (hr : r1 = r2) :
    deriveRngRaw s1 r1 = beVal ((sha256 (s1 ++ be64 r1)).take 8) ∧
    deriveRngRaw s1 r1 < 2 ^ 64 ∧
    deriveRngRaw s1 r1 = deriveRngRaw s2 r2 ∧
    secretOf mn mx (deriveRngRaw s1 r1) = secretOf mn mx (deriveRngRaw s2 r2) := by
  subst hs; subst hr
  exact ⟨rfl, deriveRngRaw_lt s1 r1, rfl, rfl⟩

/-- Witness for C2 at the all-zero seed and request id 7. -/
theorem derivation_pure_function_witness :
    deriveRngRaw zeroSeed 7 = beVal ((sha256 (zeroSeed ++ be64 7)).take 8) ∧
    deriveRngRaw zeroSeed 7 < 2 ^ 64 ∧
    deriveRngRaw zeroSeed 7 = deriveRngRaw zeroSeed 7 ∧
    secretOf 5 15 (deriveRngRaw zeroSeed 7) = secretOf 5 15 (deriveRngRaw zeroSeed 7) :=
  derivation_pure_function zeroSeed zeroSeed 7 7 5 15 rfl rfl

/-- C3.  For every 32-byte seed and every game with min below max and the
range size within the cap, the secret computed at resolution lies in the
inclusive interval from min to max. -/
theorem secret_in_range (seed : Bytes) (request_id mn mx : Nat)
    (_hlen : seed.length = 32) (hmm : mn < mx)
    (_hcap : mx - mn + 1 ≤ MAX_RANGE_SIZE) :
    mn ≤ secretOf mn mx (deriveRngRaw seed request_id) ∧
    secretOf mn mx (deriveRngRaw seed request_id) ≤ mx := by
  unfold secretOf
  have h := Nat.mod_lt (deriveRngRaw seed request_id)
    (y := mx - mn + 1) (by omega)
  omega

/-- Witness for C3 at the all-zero seed, request id 7, range 5 to 15. -/
theorem secret_in_range_witness :
    5 ≤ secretOf 5 15 (deriveRngRaw zeroSeed 7) ∧
    secretOf 5 15 (deriveRngRaw zeroSeed 7) ≤ 15 :=
  secret_in_range zeroSeed 7 5 15 (by decide) (by decide) (by decide)

/-! ## Claim theorems: the oracle-integration contract -/

/-- C4.  Once a request's record is fulfilled, a further fulfill call for
that request id by a whitelisted, authenticated caller with a non-empty
payload fails with AlreadyFulfilled; the host-visible state rolls back
unchanged, the stored record keeps its payload, and no fulfill call
whatsoever, with any caller or payload, can succeed for that request id. -/
theorem fulfill_write_once (auths : Address → Bool) (st : OIState)
    (caller : Address) (request_id : Id32) (payload proof : Bytes)
    (req : OracleRequest) (sources : List Address)
    (hreq : st.requests request_id = some req)
    (hful : req.fulfilled = true)
    (hpay : payload.isEmpty = false)
    (hauth : auths caller = true)
    (hsrc : st.sources = some sources)
    (hin : caller ∈ sources) :
    OracleIntegration.fulfill_data auths st caller request_id payload proof
      = .err .AlreadyFulfilled ∧
    OracleIntegration.runFulfill auths st caller request_id payload proof = st ∧
    (OracleIntegration.runFulfill auths st caller request_id payload proof).requests
        request_id = some req ∧
    (∀ (auths2 : Address → Bool) (caller2 : Address) (payload2 proof2 : Bytes)
       (st2 : OIState),
       OracleIntegration.fulfill_data auths2 st caller2 request_id payload2 proof2
         ≠ .ok st2) := by
  have herr : OracleIntegration.fulfill_data auths st caller request_id payload proof
      = .err .AlreadyFulfilled := by
    simp [OracleIntegration.fulfill_data, hpay, hauth, hsrc, hin, hreq, hful]
  refine ⟨herr, ?_, ?_, ?_⟩
  · simp [OracleIntegration.runFulfill, herr]
  · simp [OracleIntegration.runFulfill, herr, hreq]
  · intro auths2 caller2 payload2 proof2 st2
    simp only [OracleIntegration.fulfill_data]
    split
    · simp
    · split
      · simp
      · cases hs : st.sources with
        | none => simp
        | some srcs =>
          simp only [hs]
          split
          · simp
          · simp [hreq, hful]

/-- A concrete fulfilled oracle state: one source, one fulfilled request. -/
def sampleOIReq : OracleRequest :=
  { feed_id := 3, fulfilled := true, payload := [9, 9, 9] }

/-- A concrete oracle-integration state holding `sampleOIReq` under
request id 2. -/
def sampleOI : OIState :=
  { admin := some 1
    sources := some [5]
    requests := fun rid => if rid = 2 then some sampleOIReq else none
    latestMap := fun _ => none }

/-- Witness for C4: refulfilling request 2 of the concrete state fails. -/
theorem fulfill_write_once_witness :
    OracleIntegration.fulfill_data (fun _ => true) sampleOI 5 2 [1, 2, 3] []
      = .err .AlreadyFulfilled ∧
    OracleIntegration.runFulfill (fun _ => true) sampleOI 5 2 [1, 2, 3] [] = sampleOI ∧
    (OracleIntegration.runFulfill (fun _ => true) sampleOI 5 2 [1, 2, 3] []).requests 2
      = some sampleOIReq ∧
    (∀ (auths2 : Address → Bool) (caller2 : Address) (payload2 proof2 : Bytes)
       (st2 : OIState),
       OracleIntegration.fulfill_data auths2 sampleOI caller2 2 payload2 proof2
         ≠ .ok st2) :=
  fulfill_write_once (fun _ => true) sampleOI 5 2 [1, 2, 3] [] sampleOIReq [5]
    (by simp [sampleOI]) (by simp [sampleOIReq]) (by simp) rfl rfl (by decide)

/-- C10.  The read operations of the oracle-integration contract are total
functions of the state taking no authorization evidence: each returns
exactly the stored optional entry, and in particular returns none, rather
than any error, when the feed or request id is absent. -/
theorem oracle_reads_total (st : OIState) (feed_id request_id : Id32) :
    OracleIntegration.latest st feed_id = st.latestMap feed_id ∧
    OracleIntegration.get_request st request_id = st.requests request_id ∧
    (st.latestMap feed_id = none → OracleIntegration.latest st feed_id = none) ∧
    (st.requests request_id = none →
      OracleIntegration.get_request st request_id = none) :=
  ⟨rfl, rfl, fun h => h, fun h => h⟩

/-- Witness for C10 on the concrete state, at an absent feed id and an
absent request id. -/
theorem oracle_reads_total_witness :
    OracleIntegration.latest sampleOI 3 = sampleOI.latestMap 3 ∧
    OracleIntegration.get_request sampleOI 4 = sampleOI.requests 4 ∧
    (sampleOI.latestMap 3 = none → OracleIntegration.latest sampleOI 3 = none) ∧
    (sampleOI.requests 4 = none → OracleIntegration.get_request sampleOI 4 = none) :=
  oracle_reads_total sampleOI 3 4

/-! ## Claim theorems: the wagering settlement engine -/

/-- C9.  On an existing Open game, submit_guess succeeds exactly when the
guess lies in the inclusive range, storing the guess and moving the game to
Guessed; below-min or above-max guesses fail GuessOutOfRange, a missing
game fails GameNotFound, and any game already past Open — in particular one
already guessed — fails AlreadyGuessed. -/
theorem submit_guess_spec (st : EngineState) (game_id guess : Nat) :
    (st.games game_id = none →
       submit_guess st game_id guess = .error .GameNotFound) ∧
    (∀ g, st.games game_id = some g → g.status = .Open →
       (g.min ≤ guess ∧ guess ≤ g.max →
          ∃ st', submit_guess st game_id guess = .ok st' ∧
            st'.games game_id =
              some { g with guess := guess, status := .Guessed } ∧
            (∀ i, i ≠ game_id → st'.games i = st.games i) ∧
            st'.balances = st.balances) ∧
       ((guess < g.min ∨ g.max < guess) →
          submit_guess st game_id guess = .error .GuessOutOfRange)) ∧
    (∀ g, st.games game_id = some g → g.status ≠ .Open →
       submit_guess st game_id guess = .error .AlreadyGuessed) := by
  refine ⟨?_, ?_, ?_⟩
  · intro h
    simp [submit_guess, h]
  · intro g hg hopen
    have hopen2 : ¬ (g.status ≠ GameStatus.Open) := by simp [hopen]
    constructor
    · intro hin
      have hcond : ¬ (guess < g.min ∨ g.max < guess) := by omega
      let g1 : Game := { g with guess := guess, status := .Guessed }
      refine ⟨{ st with games := setGame st.games game_id g1 }, ?_, ?_, ?_, rfl⟩
      · simp only [submit_guess, hg]
        rw [if_neg hopen2, if_neg hcond]
      · simp [setGame, g1]
      · intro i hi
        simp [setGame, hi]
    · intro hout
      simp only [submit_guess, hg]
      rw [if_neg hopen2, if_pos hout]
  · intro g hg hne
    simp [submit_guess, hg, hne]

/-- A concrete engine configuration matching the test fixture: wager bounds
10 to 10000, house edge 250 basis points. -/
def sampleCfg : EngineConfig :=
  { admin := 90, rng_contract := 91, prize_pool := 92, settlement_token := 93,
    min_wager := 10, max_wager := 10000, house_edge_bps := 250 }

/-- A concrete engine world: engine identity 0, a funded engine and player,
no games, no fulfilled randomness. -/
def sampleEngine : EngineState :=
  { config := sampleCfg
    selfAddr := 0
    games := fun _ => none
    rng := fun _ => none
    balances := fun a => if a = 0 then 1000000 else if a = 7 then 500 else 0 }

/-- The concrete world after player 7 opened game 1 over the range 1 to 10
with wager 100. -/
def sampleOpened : EngineState :=
  runOp (.startGame (fun _ => true) 7 1 10 100 1) sampleEngine

/-- Witness for C9: on the concrete opened game, a guess of 5 is accepted
while the absent game 9 is rejected. -/
theorem submit_guess_spec_witness :
    (∃ st', submit_guess sampleOpened 1 5 = .ok st' ∧
       st'.games 1 = some { player := 7, min := 1, max := 10, wager := 100,
                            guess := 5, secret := 0, payout := 0,
                            status := .Guessed } ∧
       (∀ i, i ≠ 1 → st'.games i = sampleOpened.games i) ∧
       st'.balances = sampleOpened.balances) ∧
    submit_guess sampleOpened 9 5 = .error .GameNotFound := by
  have hg : sampleOpened.games 1 =
      some { player := 7, min := 1, max := 10, wager := 100,
             guess := 0, secret := 0, payout := 0, status := .Open } := by
    simp [sampleOpened, runOp, applyOp, start_game, transfer, sampleEngine,
          sampleCfg, setGame, MAX_RANGE_SIZE]
  constructor
  · exact ((submit_guess_spec sampleOpened 1 5).2.1 _ hg rfl).1 (by decide)
  · exact (submit_guess_spec sampleOpened 9 5).1
      (by simp [sampleOpened, runOp, applyOp, start_game, transfer,
                sampleEngine, sampleCfg, setGame, MAX_RANGE_SIZE])

/-- C8.  For all valid start_game inputs — ordered range within the cap,
wager within the configured bounds and positive, a fresh game id, the
player's authorization, and a player distinct from the engine holding at
least the wager — the call succeeds, stores an Open game carrying the given
player, range and wager with guess, secret and payout all zero, and moves
exactly the wager from the player to the engine. -/
theorem start_game_spec (auths : Address → Bool) (st : EngineState)
    (player : Address) (mn mx : Nat) (wager : Int) (game_id : Nat)
    (hr : mn < mx) (hcap : mx - mn + 1 ≤ MAX_RANGE_SIZE)
    (hw : st.config.min_wager ≤ wager ∧ wager ≤ st.config.max_wager ∧ 0 < wager)
    (hfresh : st.games game_id = none)
    (hauth : auths player = true)
    (hbal : wager ≤ st.balances player)
    (hne : player ≠ st.selfAddr) :
    ∃ st', start_game auths st player mn mx wager game_id = .ok st' ∧
      st'.games game_id = some { player := player, min := mn, max := mx,
                                 wager := wager, guess := 0, secret := 0,
                                 payout := 0, status := .Open } ∧
      st'.balances player = st.balances player - wager ∧
      st'.balances st.selfAddr = st.balances st.selfAddr + wager ∧
      (∀ i, i ≠ game_id → st'.games i = st.games i) := by
  have h1 : ¬ ¬ mn < mx := not_not_intro hr
  have h2 : ¬ ¬ mx - mn + 1 ≤ MAX_RANGE_SIZE := not_not_intro hcap
  have h3 : ¬ ¬ (st.config.min_wager ≤ wager ∧ wager ≤ st.config.max_wager ∧
      0 < wager) := not_not_intro hw
  have h4 : ¬ (st.games game_id).isSome = true := by simp [hfresh]
  have h5 : ¬ ¬ auths player = true := not_not_intro hauth
  have h6 : ¬ st.balances player < wager := not_lt.mpr hbal
  simp only [start_game, transfer]
  rw [if_neg h1, if_neg h2, if_neg h3, if_neg h4, if_neg h5, if_neg h6]
  refine ⟨_, rfl, ?_, ?_, ?_, ?_⟩
  · simp [setGame]
  · simp [setGame, hne]
  · simp [setGame, hne.symm]
  · intro i hi
    simp [setGame, hi]

/-- Witness for C8: player 7 opens game 1 in the concrete world. -/
theorem start_game_spec_witness :
    ∃ st', start_game (fun _ => true) sampleEngine 7 1 10 100 1 = .ok st' ∧
      st'.games 1 = some { player := 7, min := 1, max := 10,
                           wager := 100, guess := 0, secret := 0,
                           payout := 0, status := .Open } ∧
      st'.balances 7 = sampleEngine.balances 7 - 100 ∧
      st'.balances sampleEngine.selfAddr =
        sampleEngine.balances sampleEngine.selfAddr + 100 ∧
      (∀ i, i ≠ 1 → st'.games i = sampleEngine.games i) :=
  start_game_spec (fun _ => true) sampleEngine 7 1 10 100 1
    (by decide) (by decide) (by decide) rfl rfl (by decide) (by decide)

/-- A concrete world already holding game 1, used to exhibit the behaviour
of start_game on a reused game id. -/
def sampleDup : EngineState :=
  { config := sampleCfg
    selfAddr := 0
    games := fun i =>
      if i = 1 then
        some { player := 7, min := 1, max := 10, wager := 100, guess := 0,
               secret := 0, payout := 0, status := .Open }
      else none
    rng := fun _ => none
    balances := fun _ => 1000 }

/-- Counterexample for C7 as stated: with game id 1 already present,
start_game with an invalid range (min 5, max 5) fails with InvalidRange,
not DuplicateGameId — the range check precedes the duplicate check, so the
reported error is not independent of the range parameters. -/
theorem start_game_duplicate_counterexample :
    (sampleDup.games 1).isSome = true ∧
    start_game (fun _ => true) sampleDup 7 5 5 100 1 = .error .InvalidRange ∧
    NgError.InvalidRange ≠ NgError.DuplicateGameId := by
  refine ⟨rfl, ?_, by decide⟩
  rfl

/-- C7 (amended).  With a game id already present, start_game always fails
and leaves the world unchanged — no new game, no transfer; the error is
DuplicateGameId whenever the range and wager validations that precede the
duplicate check pass, regardless of the player. -/
theorem start_game_duplicate_amended (auths : Address → Bool)
    (st : EngineState) (player : Address) (mn mx : Nat) (wager : Int)
    (game_id : Nat) (hdup : (st.games game_id).isSome = true) :
    (∃ e, start_game auths st player mn mx wager game_id = .error e) ∧
    (mn < mx → mx - mn + 1 ≤ MAX_RANGE_SIZE →
      st.config.min_wager ≤ wager → wager ≤ st.config.max_wager → 0 < wager →
      start_game auths st player mn mx wager game_id
        = .error .DuplicateGameId) ∧
    runOp (.startGame auths player mn mx wager game_id) st = st := by
  have herr : ∃ e, start_game auths st player mn mx wager game_id = .error e := by
    simp only [start_game]
    split
    · exact ⟨_, rfl⟩
    · split
      · exact ⟨_, rfl⟩
      · split
        · exact ⟨_, rfl⟩
        · exact ⟨_, rfl⟩
  refine ⟨herr, ?_, ?_⟩
  · intro h1 h2 h3 h4 h5
    simp only [start_game]
    rw [if_neg (not_not_intro h1), if_neg (not_not_intro h2),
        if_neg (not_not_intro ⟨h3, h4, h5⟩), if_pos hdup]
  · obtain ⟨e, he⟩ := herr
    simp [runOp, applyOp, he]

/-- Witness for C7 (amended): reusing game id 1 of the concrete world with
otherwise valid parameters fails with DuplicateGameId and changes nothing. -/
theorem start_game_duplicate_amended_witness :
    (∃ e, start_game (fun _ => true) sampleDup 8 1 10 100 1 = .error e) ∧
    (1 < 10 → 10 - 1 + 1 ≤ MAX_RANGE_SIZE →
      sampleDup.config.min_wager ≤ 100 → 100 ≤ sampleDup.config.max_wager →
      0 < (100 : Int) →
      start_game (fun _ => true) sampleDup 8 1 10 100 1
        = .error .DuplicateGameId) ∧
    runOp (.startGame (fun _ => true) 8 1 10 100 1) sampleDup = sampleDup :=
  start_game_duplicate_amended (fun _ => true) sampleDup 8 1 10 100 1 rfl

/-- C6.  On an existing game, resolve_game fails NotYetGuessed while the
game is still Open, fails RandomnessNotFulfilled when the game is Guessed
but the oracle holds no fulfilled record for its id, and fails
AlreadyResolved once the game is Won or Lost; every error rolls the
host-visible state back unchanged, so no write or transfer survives. -/
theorem resolve_game_error_spec (st : EngineState) (game_id : Nat) :
    (∀ g, st.games game_id = some g → g.status = .Open →
       resolve_game st game_id = .error .NotYetGuessed) ∧
    (∀ g, st.games game_id = some g → g.status = .Guessed →
       st.rng game_id = none →
       resolve_game st game_id = .error .RandomnessNotFulfilled) ∧
    (∀ g, st.games game_id = some g →
       (g.status = .Won ∨ g.status = .Lost) →
       resolve_game st game_id = .error .AlreadyResolved) ∧
    (∀ e, resolve_game st game_id = .error e →
       runOp (.resolveGame game_id) st = st) := by
  refine ⟨?_, ?_, ?_, ?_⟩
  · intro g hg hopen
    simp [resolve_game, hg, hopen]
  · intro g hg hguessed hrng
    simp [resolve_game, hg, hguessed, hrng]
  · intro g hg hterm
    rcases hterm with h | h <;> simp [resolve_game, hg, h]
  · intro e he
    simp [runOp, applyOp, he]

/-- A concrete world holding game 1 still Open, game 2 Guessed with no
randomness, and game 3 already Won. -/
def sampleResolve : EngineState :=
  { config := sampleCfg
    selfAddr := 0
    games := fun i =>
      if i = 1 then
        some { player := 7, min := 1, max := 10, wager := 100, guess := 0,
               secret := 0, payout := 0, status := .Open }
      else if i = 2 then
        some { player := 7, min := 1, max := 10, wager := 100, guess := 5,
               secret := 0, payout := 0, status := .Guessed }
      else if i = 3 then
        some { player := 7, min := 1, max := 10, wager := 100, guess := 5,
               secret := 5, payout := 975, status := .Won }
      else none
    rng := fun _ => none
    balances := fun _ => 1000 }

/-- Witness for C6: the three failure modes on the concrete world, each
leaving it unchanged. -/
theorem resolve_game_error_spec_witness :
    resolve_game sampleResolve 1 = .error .NotYetGuessed ∧
    resolve_game sampleResolve 2 = .error .RandomnessNotFulfilled ∧
    resolve_game sampleResolve 3 = .error .AlreadyResolved ∧
    runOp (.resolveGame 1) sampleResolve = sampleResolve ∧
    runOp (.resolveGame 2) sampleResolve = sampleResolve ∧
    runOp (.resolveGame 3) sampleResolve = sampleResolve := by
  have spec1 := resolve_game_error_spec sampleResolve 1
  have spec2 := resolve_game_error_spec sampleResolve 2
  have spec3 := resolve_game_error_spec sampleResolve 3
  have h1 := spec1.1 _ rfl rfl
  have h2 := spec2.2.1 _ rfl rfl rfl
  have h3 := spec3.2.2.1 _ rfl (Or.inl rfl)
  exact ⟨h1, h2, h3, spec1.2.2.2 _ h1, spec2.2.2.2 _ h2, spec3.2.2.2 _ h3⟩

/-- C1.  A game resolved as Won — the stored guess equals the derived
secret — records as payout exactly the net amount: the gross payout is the
wager times the range size, kept within i128 by a checked bound, the fee is
the floor of gross times house_edge_bps over 10000, and net, the
difference, moves from the engine's balance to the player; in particular a
wager of 100 over range size 10 at 250 basis points nets 975, and a wager
of 1000 over range size 2 nets 1950. -/
theorem resolve_win_payout (st : EngineState) (game_id : Nat) (g : Game)
    (raw : Nat)
    (hg : st.games game_id = some g) (hst : g.status = .Guessed)
    (hrng : st.rng game_id = some raw)
    (hwin : g.guess = secretOf g.min g.max raw)
    (hov : g.wager * ((g.max - g.min + 1 : Nat) : Int) ≤ 2 ^ 127 - 1)
    (hbal : netPayout g.wager (g.max - g.min + 1) st.config.house_edge_bps
              ≤ st.balances st.selfAddr)
    (hne : g.player ≠ st.selfAddr) :
    (∃ st', resolve_game st game_id = .ok st' ∧
      st'.games game_id = some { g with
        secret := secretOf g.min g.max raw,
        payout := netPayout g.wager (g.max - g.min + 1) st.config.house_edge_bps,
        status := .Won } ∧
      st'.balances g.player = st.balances g.player
        + netPayout g.wager (g.max - g.min + 1) st.config.house_edge_bps ∧
      st'.balances st.selfAddr = st.balances st.selfAddr
        - netPayout g.wager (g.max - g.min + 1) st.config.house_edge_bps) ∧
    netPayout 100 10 250 = 975 ∧
    netPayout 1000 2 250 = 1950 := by
  have hov2 : ¬ (2 ^ 127 - 1 < g.wager * ((g.max - g.min + 1 : Nat) : Int)) :=
    not_lt.mpr hov
  have hbal2 : ¬ (st.balances st.selfAddr <
      netPayout g.wager (g.max - g.min + 1) st.config.house_edge_bps) :=
    not_lt.mpr hbal
  refine ⟨?_, by decide, by decide⟩
  simp only [resolve_game, hg, hst, hrng, transfer]
  rw [if_pos hwin, if_neg hov2, if_neg hbal2]
  refine ⟨_, rfl, ?_, ?_, ?_⟩
  · simp [setGame]
  · simp [setGame, hne]
  · simp [setGame, hne.symm]

/-- A concrete world with game 2 Guessed at guess 5 and the oracle holding
a raw value 14 for it, so the derived secret over the range 1 to 10 is 5
and resolution wins. -/
def sampleWin : EngineState :=
  { config := sampleCfg
    selfAddr := 0
    games := fun i =>
      if i = 2 then
        some { player := 7, min := 1, max := 10, wager := 100, guess := 5,
               secret := 0, payout := 0, status := .Guessed }
      else none
    rng := fun i => if i = 2 then some 14 else none
    balances := fun a => if a = 0 then 1000000 else if a = 7 then 400 else 0 }

/-- Witness for C1: resolving the concrete winning game pays 975. -/
theorem resolve_win_payout_witness :
    (∃ st', resolve_game sampleWin 2 = .ok st' ∧
      st'.games 2 = some { player := 7, min := 1, max := 10, wager := 100,
                           guess := 5, secret := secretOf 1 10 14,
                           payout := netPayout 100 (10 - 1 + 1)
                             sampleWin.config.house_edge_bps,
                           status := .Won } ∧
      st'.balances 7 = sampleWin.balances 7
        + netPayout 100 (10 - 1 + 1) sampleWin.config.house_edge_bps ∧
      st'.balances sampleWin.selfAddr = sampleWin.balances sampleWin.selfAddr
        - netPayout 100 (10 - 1 + 1) sampleWin.config.house_edge_bps) ∧
    netPayout 100 10 250 = 975 ∧
    netPayout 1000 2 250 = 1950 :=
  resolve_win_payout sampleWin 2
    { player := 7, min := 1, max := 10, wager := 100, guess := 5,
      secret := 0, payout := 0, status := .Guessed } 14
    rfl rfl rfl (by decide) (by decide) (by decide) (by decide)

/-- One legal evolution of a single game slot under one operation: left
unchanged, created Open, moved Open to Guessed, or moved Guessed to Won or
Lost; a stored game never disappears. -/
def statusStep : Option Game → Option Game → Prop
  | none, none => True
  | none, some g1 => g1.status = .Open
  | some _, none => False
  | some g, some g1 =>
      g1 = g ∨
      (g.status = .Open ∧ g1.status = .Guessed) ∨
      (g.status = .Guessed ∧ (g1.status = .Won ∨ g1.status = .Lost))

/-- A slot relates legally to itself. -/
lemma statusStep_refl (og : Option Game) : statusStep og og := by
  cases og <;> simp [statusStep]

/-- A successful token transfer never touches the game ledger. -/
lemma transfer_ok_games (st st1 : EngineState) (src dst : Address)
    (amount : Int) (h : transfer st src dst amount = .ok st1) :
    st1.games = st.games := by
  unfold transfer at h
  split at h
  · exact Except.noConfusion h
  · cases h; rfl

/-- Every single invocation moves every game slot along a legal edge. -/
lemma runOp_statusStep (op : EngineOp) (st : EngineState) (i : Nat) :
    statusStep (st.games i) ((runOp op st).games i) := by
  rcases hop : applyOp op st with e | st1
  · simp [runOp, hop, statusStep_refl]
  · have hgames : statusStep (st.games i) (st1.games i) := by
      cases op with
      | startGame auths player mn mx wager game_id =>
        simp only [applyOp, start_game] at hop
        split at hop
        · exact Except.noConfusion hop
        split at hop
        · exact Except.noConfusion hop
        split at hop
        · exact Except.noConfusion hop
        split at hop
        · exact Except.noConfusion hop
        · rename_i hfresh
          split at hop
          · exact Except.noConfusion hop
          · split at hop
            · exact Except.noConfusion hop
            · rename_i st2 heq
              cases hop
              have hg2 : st2.games = st.games :=
                transfer_ok_games st st2 player st.selfAddr wager heq
              have hnone : st.games game_id = none :=
                Option.not_isSome_iff_eq_none.mp (by simpa using hfresh)
              by_cases hi : i = game_id
              · subst hi
                simp [setGame, hg2, hnone, statusStep]
              · simp [setGame, hi, hg2, statusStep_refl]
      | submitGuess game_id guess =>
        simp only [applyOp, submit_guess] at hop
        split at hop
        · exact Except.noConfusion hop
        · rename_i g hsome
          split at hop
          · exact Except.noConfusion hop
          split at hop
          · exact Except.noConfusion hop
          · rename_i hopen _
            cases hop
            by_cases hi : i = game_id
            · subst hi
              rw [hsome]
              simp only [setGame, if_pos rfl, statusStep]
              exact Or.inr (Or.inl ⟨not_not.mp hopen, rfl⟩)
            · simp [setGame, hi, statusStep_refl]
      | resolveGame game_id =>
        simp only [applyOp, resolve_game] at hop
        split at hop
        · exact Except.noConfusion hop
        · rename_i g hsome
          split at hop
          · exact Except.noConfusion hop
          · exact Except.noConfusion hop
          · exact Except.noConfusion hop
          · rename_i hguessed
            split at hop
            · exact Except.noConfusion hop
            · split at hop
              · split at hop
                · exact Except.noConfusion hop
                · split at hop
                  · exact Except.noConfusion hop
                  · rename_i st2 heq
                    cases hop
                    have hg2 : st2.games = st.games :=
                      transfer_ok_games st st2 st.selfAddr g.player _ heq
                    by_cases hi : i = game_id
                    · subst hi
                      rw [hg2]
                      rw [hsome]
                      simp only [setGame, if_pos rfl, statusStep]
                      exact Or.inr (Or.inr ⟨hguessed, Or.inl rfl⟩)
                    · simp [setGame, hi, hg2, statusStep_refl]
              · cases hop
                by_cases hi : i = game_id
                · subst hi
                  rw [hsome]
                  simp only [setGame, if_pos rfl, statusStep]
                  exact Or.inr (Or.inr ⟨hguessed, Or.inr rfl⟩)
                · simp [setGame, hi, statusStep_refl]
      | oracleFulfill request_id raw =>
        simp only [applyOp] at hop
        split at hop
        · exact Except.noConfusion hop
        · cases hop
          exact statusStep_refl _
    simpa [runOp, hop] using hgames

/-- C5.  Every game's status only advances along the lifecycle
Open to Guessed to Won or Lost: each operation moves each game slot along
one legal edge only — never skipping a state, never in reverse — and once
a game is Won or Lost no sequence of operations mutates it again. -/
theorem game_lifecycle :
    (∀ (op : EngineOp) (st : EngineState) (i : Nat),
       statusStep (st.games i) ((runOp op st).games i)) ∧
    (∀ (ops : List EngineOp) (st : EngineState) (i : Nat) (g : Game),
       st.games i = some g → (g.status = .Won ∨ g.status = .Lost) →
       (runOps ops st).games i = some g) := by
  refine ⟨runOp_statusStep, ?_⟩
  intro ops
  induction ops with
  | nil =>
    intro st i g hg _
    simpa [runOps] using hg
  | cons op ops ih =>
    intro st i g hg hterm
    have hstep := runOp_statusStep op st i
    rw [hg] at hstep
    have hkeep : (runOp op st).games i = some g := by
      cases hcase : (runOp op st).games i with
      | none =>
        rw [hcase] at hstep
        exact absurd hstep (by simp [statusStep])
      | some g1 =>
        rw [hcase] at hstep
        rcases hstep with h | ⟨h1, _⟩ | ⟨h1, _⟩
        · rw [h]
        · rcases hterm with ht | ht <;> rw [ht] at h1 <;> cases h1
        · rcases hterm with ht | ht <;> rw [ht] at h1 <;> cases h1
    have htail := ih (runOp op st) i g hkeep hterm
    simpa [runOps] using htail

/-- Witness for C5: on the concrete world, one step from the Won game 3 is
legal, and a resolve followed by a fresh guess attempt leaves the Won game
exactly as it was. -/
theorem game_lifecycle_witness :
    statusStep (sampleResolve.games 3)
      ((runOp (.resolveGame 3) sampleResolve).games 3) ∧
    (runOps [.resolveGame 3, .submitGuess 3 4] sampleResolve).games 3 =
      some { player := 7, min := 1, max := 10, wager := 100, guess := 5,
             secret := 5, payout := 975, status := .Won } :=
  ⟨game_lifecycle.1 (.resolveGame 3) sampleResolve 3,
   game_lifecycle.2 [.resolveGame 3, .submitGuess 3 4] sampleResolve 3
     { player := 7, min := 1, max := 10, wager := 100, guess := 5,
       secret := 5, payout := 975, status := .Won }
     rfl (Or.inl rfl)⟩

end StellarCade
